import Mathlib

/-!
# express-blog: the Post model's comment counter, the routers and the request logger

A shallow embedding of

* `server/src/models/Post.js` (schema, `commentCountInc`, `commentCountDec`, `toResponse`),
* `src/routes/api/comments.js`, `src/routes/api/posts.js`, `client/src/api/posts.js`,
* `server/worker.js` (the morgan `request-body` token),
* `src/controllers/posts.js` (`getAll`, the slug of `create`).

The document store is a list of documents; one `findByIdAndUpdate` is one atomic step on it.
Numbers that the code only ever changes by `$inc: ±1` are integers.
-/

namespace ExpressBlog

/-! ## The Post model (`server/src/models/Post.js`) -/

/-- An already cast `Schema.Types.ObjectId`. -/
abbrev ObjectId := Nat

/-- A document of the `Post` schema, lines 7-39: the declared paths, `_id`, and the two
paths added by `timestamps: true`. A `Schema.Types.Mixed` section is kept as its text. -/
structure Post where
  _id : ObjectId
  title : String
  slug : Option String
  author : Option ObjectId
  tags : List String
  sections : List String
  commentCount : Int
  rating : Int
  createdAt : Nat
  updatedAt : Nat
deriving DecidableEq, Repr

/-- The collection behind `mongoose.model('Post', schema)`. -/
abbrev Store := List Post

/-- The update document `{ $inc: { commentCount: d } }`. -/
structure Update where
  incCommentCount : Int
deriving DecidableEq, Repr

/-- The query options `{ new: b }`. -/
structure QueryOptions where
  new : Bool
deriving DecidableEq, Repr

/-- A document as `Post.create` stores it when only title, slug and author are supplied:
every other path takes its schema default (`commentCount: 0`, `rating: 0`, empty arrays). -/
def Post.create (id : ObjectId) (title : String) (slug : Option String)
    (author : Option ObjectId) (now : Nat) : Post :=
  { _id := id, title := title, slug := slug, author := author, tags := [], sections := [],
    commentCount := 0, rating := 0, createdAt := now, updatedAt := now }

/-- The query `findById`: the first document whose `_id` is `postId`, or `null`. -/
def findById : Store → ObjectId → Option Post
  | [], _ => none
  | doc :: rest, postId => if doc._id = postId then some doc else findById rest postId

/-- One document after the update `u` applied at time `now`: `$inc` adds to the stored
counter, and `timestamps: true` makes the update set `updatedAt`. -/
def applyUpdate (doc : Post) (u : Update) (now : Nat) : Post :=
  { doc with commentCount := doc.commentCount + u.incCommentCount, updatedAt := now }

/-- The model's `findByIdAndUpdate(postId, u, opts)` as one atomic step on the store: the first
document with that `_id` is replaced by its update and the promise is fulfilled with the
document after the update (`new: true`) or before it; with no such document the promise is
fulfilled with `null` and nothing is written (there is no `upsert`). -/
def findByIdAndUpdate : Store → ObjectId → Update → QueryOptions → Nat →
    Except String (Option Post) × Store
  | [], _, _, _, _ => (Except.ok none, [])
  | doc :: rest, postId, u, opts, now =>
    if doc._id = postId then
      (Except.ok (some (if opts.new then applyUpdate doc u now else doc)),
        applyUpdate doc u now :: rest)
    else
      ((findByIdAndUpdate rest postId u opts now).1,
        doc :: (findByIdAndUpdate rest postId u opts now).2)

/-- The static `commentCountInc`, lines 41-47. -/
def commentCountInc (store : Store) (postId : ObjectId) (now : Nat) :
    Except String (Option Post) × Store :=
  findByIdAndUpdate store postId ⟨1⟩ ⟨true⟩ now

/-- The static `commentCountDec`, lines 49-55. -/
def commentCountDec (store : Store) (postId : ObjectId) (now : Nat) :
    Except String (Option Post) × Store :=
  findByIdAndUpdate store postId ⟨-1⟩ ⟨true⟩ now

/-- One call of a counter static, with the post it names and the time it is applied. -/
inductive Call where
  | inc (postId : ObjectId) (now : Nat)
  | dec (postId : ObjectId) (now : Nat)
deriving DecidableEq, Repr

/-- The store after one call. -/
def Call.run (store : Store) : Call → Store
  | Call.inc postId now => (commentCountInc store postId now).2
  | Call.dec postId now => (commentCountDec store postId now).2

/-- The store after a sequence of calls, each applied atomically, in the order given: an
interleaving of concurrent calls is one such sequence. -/
def runCalls (store : Store) (calls : List Call) : Store :=
  calls.foldl Call.run store

/-- How many calls of the sequence are `commentCountInc(postId)`. -/
def countInc (postId : ObjectId) : List Call → Nat
  | [] => 0
  | Call.inc q _ :: rest => (if q = postId then 1 else 0) + countInc postId rest
  | Call.dec _ _ :: rest => countInc postId rest

/-- How many calls of the sequence are `commentCountDec(postId)`. -/
def countDec (postId : ObjectId) : List Call → Nat
  | [] => 0
  | Call.inc _ _ :: rest => countDec postId rest
  | Call.dec q _ :: rest => (if q = postId then 1 else 0) + countDec postId rest

/-- Two documents agree on every path but `commentCount` and `updatedAt`. -/
def sameOtherPaths (a b : Post) : Prop :=
  b._id = a._id ∧ b.title = a.title ∧ b.slug = a.slug ∧ b.author = a.author ∧
    b.tags = a.tags ∧ b.sections = a.sections ∧ b.rating = a.rating ∧ b.createdAt = a.createdAt

instance (a b : Post) : Decidable (sameOtherPaths a b) := by
  unfold sameOtherPaths
  exact inferInstance

/-! ### A store to evaluate the statics on -/

/-- The store used to evaluate the counter statics: two posts with counters 3 and 0. -/
def sampleStore : Store :=
  [{ Post.create 1 "first" (some "first-a1") (some 7) 10 with commentCount := 3, rating := 2 },
   Post.create 2 "second" none none 11]

/-! ## `toResponse` (`server/src/models/Post.js`, lines 57-76) -/

/-- A JavaScript value, as far as truthiness and `||` tell values apart. A number is
integer-valued; `object` stands for any object (always truthy). -/
inductive JsVal where
  | undefined
  | null
  | bool (b : Bool)
  | num (n : Int)
  | str (s : String)
  | object
deriving DecidableEq, Repr

/-- JavaScript ToBoolean. -/
def JsVal.truthy : JsVal → Bool
  | JsVal.undefined => false
  | JsVal.null => false
  | JsVal.bool b => b
  | JsVal.num n => decide (n ≠ 0)
  | JsVal.str s => decide (s ≠ "")
  | JsVal.object => true

/-- The operator `a || b`: `a` when it is truthy, else `b`. -/
def JsVal.or (a b : JsVal) : JsVal :=
  if a.truthy then a else b

/-- The value is a boolean. -/
def JsVal.isBool : JsVal → Bool
  | JsVal.bool _ => true
  | _ => false

/-- The object `rated` that `toResponse` reads: what `rated.result` and `rated.negative`
evaluate to (`undefined` for a property that is missing, as on `{}`). -/
structure RatedLookup where
  result : JsVal
  negative : JsVal
deriving DecidableEq, Repr

/-- A `TypeError`, the only error `toResponse` can throw. -/
inductive JsError where
  | typeError
deriving DecidableEq, Repr

/-- The viewer passed to `toResponse`. Its method `isRated` is not part of the model file, so
it is carried as what calling it gives. The outer `none` is a viewer with no callable `isRated`
(the call throws a `TypeError`); the function gives `none` when the method returns `undefined`
or `null`, and otherwise what the returned value's `result` and `negative` read as. -/
structure User where
  isRated : Option (ObjectId → Option RatedLookup)

/-- The `rated` object of a response. -/
structure Rated where
  isRated : JsVal
  negative : JsVal
deriving DecidableEq, Repr

/-- The object built by `toResponse`. `uploads` is no path of the schema: `this.uploads` is
`undefined`. -/
structure PostResponse where
  title : String
  sections : List String
  slug : Option String
  author : Option ObjectId
  uploads : JsVal
  id : ObjectId
  commentCount : Int
  rating : Int
  createdAt : Nat
  tags : List String
  rated : Rated
deriving DecidableEq, Repr

/-- The statement `const rated = user ? user.isRated(this.id) : {}` together with the later
reads of `rated.result` and `rated.negative`, which throw on `undefined` and `null`. -/
def ratedOf (postId : ObjectId) (user : Option User) : Except JsError RatedLookup :=
  match user with
  | none => Except.ok ⟨JsVal.undefined, JsVal.undefined⟩
  | some u =>
    match u.isRated with
    | none => Except.error JsError.typeError
    | some isRated =>
      match isRated postId with
      | none => Except.error JsError.typeError
      | some rated => Except.ok rated

/-- The method `toResponse(user)`; `user` is `none` for a falsy argument. The result is the
returned object, or the error thrown. -/
def Post.toResponse (self : Post) (user : Option User) : Except JsError PostResponse :=
  match ratedOf self._id user with
  | Except.error e => Except.error e
  | Except.ok rated =>
    Except.ok
      { title := self.title
        sections := self.sections
        slug := self.slug
        author := self.author
        uploads := JsVal.undefined
        id := self._id
        commentCount := self.commentCount
        rating := self.rating
        createdAt := self.createdAt
        tags := self.tags
        rated := ⟨rated.result.or (JsVal.bool false), rated.negative.or (JsVal.bool false)⟩ }

/-- A viewer who rated post 1 negatively and nothing else. -/
def sampleViewer : User :=
  ⟨some (fun postId => if postId = 1 then some ⟨JsVal.bool true, JsVal.bool true⟩
    else some ⟨JsVal.bool false, JsVal.undefined⟩)⟩

/-- A viewer whose `isRated` returns `{result: 1, negative: 'yes'}` for every post. -/
def truthyViewer : User :=
  ⟨some (fun _ => some ⟨JsVal.num 1, JsVal.str "yes"⟩)⟩

/-! ## The routers (`src/routes/api/comments.js`, `src/routes/api/posts.js`) -/

/-- The HTTP methods the routers and the client use. -/
inductive Method where
  | GET
  | POST
  | PUT
  | DELETE
deriving DecidableEq, Repr

/-- One segment of a route path: a literal, or a named parameter such as `:id`. -/
inductive Seg where
  | lit (s : String)
  | param (name : String)
deriving DecidableEq, Repr

/-- The functions the two routers put on their routes. -/
inductive Handler where
  | authRequired
  | getComment
  | createComment
  | editComment
  | deleteComment
  | getAll
  | getBySlug
  | create
deriving DecidableEq, Repr

/-- One `router.METHOD(path, ...handlers)` registration. -/
structure Route where
  method : Method
  path : List Seg
  stack : List Handler
deriving DecidableEq, Repr

/-- A request as a router sees it: the method and the segments of the URL below the router's
mount point, as sent and not yet decoded (`/` is the empty list). -/
structure Request where
  method : Method
  path : List String
deriving DecidableEq, Repr

/-- The pattern of a route path on one raw segment: a literal fits the equal segment, a
parameter any non-empty segment. -/
def Seg.fits : Seg → String → Bool
  | Seg.lit s, t => decide (s = t)
  | Seg.param _, t => decide (t ≠ "")

/-- The pattern of a route path fits a URL when they have the same number of segments and each
segment fits. -/
def fitsPath : List Seg → List String → Bool
  | [], [] => true
  | p :: ps, t :: ts => p.fits t && fitsPath ps ts
  | _, _ => false

/-- A segment is accepted when it fits and, for a parameter, its value can be decoded;
`decodable t` tells whether `decodeURIComponent(t)` returns rather than throws. -/
def Seg.accepts (decodable : String → Bool) : Seg → String → Bool
  | Seg.lit s, t => decide (s = t)
  | Seg.param _, t => decide (t ≠ "") && decodable t

/-- A route path matches a URL when they have the same number of segments and each segment is
accepted. -/
def matchPath (decodable : String → Bool) : List Seg → List String → Bool
  | [], [] => true
  | p :: ps, t :: ts => p.accepts decodable t && matchPath decodable ps ts
  | _, _ => false

/-- What matching one layer against the URL gives: no match, a match, or the error 400 raised
when the pattern fits but a parameter value cannot be decoded. -/
inductive LayerMatch where
  | miss
  | hit
  | decodeError
deriving DecidableEq, Repr

/-- Match the path of a route against the URL: the pattern first, then the decoding of the
parameter values. -/
def matchLayer (decodable : String → Bool) (path : List Seg) (url : List String) : LayerMatch :=
  if fitsPath path url then
    if matchPath decodable path url then LayerMatch.hit else LayerMatch.decodeError
  else LayerMatch.miss

/-- The route handles the request: same method, matching path. -/
def Route.matches (decodable : String → Bool) (r : Route) (req : Request) : Bool :=
  decide (r.method = req.method) && matchPath decodable r.path req.path

/-- The routes of a router that match the request, in registration order. -/
def matching (decodable : String → Bool) (routes : List Route) (req : Request) : List Route :=
  routes.filter (fun r => r.matches decodable req)

/-- Run the handlers of one route in order. `passes h req` tells whether handler `h` hands the
request on with `next()`; a handler that answers, or calls `next(err)`, ends the run. The result
is the handlers that ran and whether the last one handed the request on. -/
def runStack (passes : Handler → Request → Bool) (req : Request) :
    List Handler → List Handler × Bool
  | [] => ([], true)
  | h :: rest =>
    if passes h req then (h :: (runStack passes req rest).1, (runStack passes req rest).2)
    else ([h], false)

/-- The router's scan of its routes from some point on. `pending` tells whether a decoding
error is held: a route whose path raises one is skipped and the error held, a route does not
match while an error is held, and a route whose path matches is run only if it has the
request's method. After a route whose last handler handed the request on, the scan goes on
with no error held. -/
def dispatchFrom (decodable : String → Bool) (passes : Handler → Request → Bool) :
    Bool → List Route → Request → List Handler
  | _, [], _ => []
  | pending, r :: rest, req =>
    match matchLayer decodable r.path req.path with
    | LayerMatch.miss => dispatchFrom decodable passes pending rest req
    | LayerMatch.decodeError => dispatchFrom decodable passes true rest req
    | LayerMatch.hit =>
      if pending then dispatchFrom decodable passes pending rest req
      else if r.method = req.method then
        if (runStack passes req r.stack).2 then
          (runStack passes req r.stack).1 ++ dispatchFrom decodable passes false rest req
        else (runStack passes req r.stack).1
      else dispatchFrom decodable passes pending rest req

/-- The handlers a router runs for a request, in order. -/
def dispatch (decodable : String → Bool) (passes : Handler → Request → Bool)
    (routes : List Route) (req : Request) : List Handler :=
  dispatchFrom decodable passes false routes req

/-- The value of a hexadecimal digit. -/
def hexValue (c : Char) : Option Nat :=
  if 48 ≤ c.toNat ∧ c.toNat ≤ 57 then some (c.toNat - 48)
  else if 97 ≤ c.toNat ∧ c.toNat ≤ 102 then some (c.toNat - 87)
  else if 65 ≤ c.toNat ∧ c.toNat ≤ 70 then some (c.toNat - 55)
  else none

/-- The byte written by the two digits of an escape `%XY`. -/
def escapeByte (x y : Char) : Option Nat :=
  match hexValue x, hexValue y with
  | some a, some b => some (16 * a + b)
  | _, _ => none

/-- Read `k` escapes that are UTF-8 continuation bytes (`%80`-`%BF`) from the front of the
text, adding their six bits each to the code point `acc`. -/
def continuation : Nat → List Char → Nat → Option (Nat × List Char)
  | 0, cs, acc => some (acc, cs)
  | k + 1, p :: x :: y :: cs, acc =>
    if p = '%' then
      match escapeByte x y with
      | some b => if 128 ≤ b ∧ b < 192 then continuation k cs (acc * 64 + (b - 128)) else none
      | none => none
    else none
  | _ + 1, _, _ => none

/-- Whether `decodeURIComponent` returns on the text, character by character: every `%` must
start an escape `%XY`, and the escaped bytes must be the UTF-8 encoding of code points. -/
def decodableAux : Nat → List Char → Bool
  | 0, cs => cs.isEmpty
  | _ + 1, [] => true
  | fuel + 1, c :: cs =>
    if c = '%' then
      match cs with
      | x :: y :: rest =>
        match escapeByte x y with
        | none => false
        | some b =>
          if b < 128 then decodableAux fuel rest
          else if 192 ≤ b ∧ b < 224 then
            match continuation 1 rest (b - 192) with
            | some (cp, rest1) => decide (128 ≤ cp) && decodableAux fuel rest1
            | none => false
          else if 224 ≤ b ∧ b < 240 then
            match continuation 2 rest (b - 224) with
            | some (cp, rest1) =>
              decide (2048 ≤ cp ∧ ¬ (55296 ≤ cp ∧ cp ≤ 57343)) && decodableAux fuel rest1
            | none => false
          else if 240 ≤ b ∧ b < 248 then
            match continuation 3 rest (b - 240) with
            | some (cp, rest1) => decide (65536 ≤ cp ∧ cp ≤ 1114111) && decodableAux fuel rest1
            | none => false
          else false
      | _ => false
    else decodableAux fuel cs

/-- Whether `decodeURIComponent(s)` returns rather than throws a `URIError`. -/
def decodeURIComponentOk (s : String) : Bool :=
  decodableAux s.length s.data

/-- The router of `src/routes/api/comments.js`, lines 102, 104, 160, 162. -/
def commentsRouter : List Route :=
  [⟨Method.GET, [], [Handler.getComment]⟩,
   ⟨Method.POST, [], [Handler.authRequired, Handler.createComment]⟩,
   ⟨Method.PUT, [Seg.param "id"], [Handler.authRequired, Handler.editComment]⟩,
   ⟨Method.DELETE, [Seg.param "id"], [Handler.authRequired, Handler.deleteComment]⟩]

/-- The router of `src/routes/api/posts.js`, lines 5, 6, 8. -/
def postsRouter : List Route :=
  [⟨Method.GET, [], [Handler.getAll]⟩,
   ⟨Method.GET, [Seg.param "slug"], [Handler.getBySlug]⟩,
   ⟨Method.POST, [], [Handler.authRequired, Handler.create]⟩]

/-! ### The client (`client/src/api/_query.js`, `client/src/api/posts.js`) -/

/-- The object handed to axios: `url`, `method` and, when given, `data`. -/
structure RequestData where
  url : String
  method : Method
  data : Option String
deriving DecidableEq, Repr

/-- The constant `CONTROLLER_URL` of `client/src/api/posts.js`. -/
def CONTROLLER_URL : String := "/posts"

/-- The function `Query` of `_query.js` up to the axios call: the configured `API_ROUTE` is put
in front of the URL. -/
def Query (API_ROUTE : String) (requestData : RequestData) : RequestData :=
  { requestData with url := API_ROUTE ++ requestData.url }

/-- The client's `updateRateById(id, data)`. -/
def updateRateById (API_ROUTE : String) (id : String) (data : String) : RequestData :=
  Query API_ROUTE ⟨CONTROLLER_URL ++ "/" ++ id ++ "/rate", Method.PUT, some data⟩

/-- The client's `removeRateById(id)`. -/
def removeRateById (API_ROUTE : String) (id : String) : RequestData :=
  Query API_ROUTE ⟨CONTROLLER_URL ++ "/" ++ id ++ "/rate", Method.DELETE, none⟩

/-- The non-empty segments of a URL path. -/
def segments (url : String) : List String :=
  (url.splitOn "/").filter (fun s => decide (s ≠ ""))

/-- The request a router mounted at `mount` sees for a client request under that mount point:
the mount path is stripped from the URL. -/
def routerRequest (mount : String) (requestData : RequestData) : Request :=
  ⟨requestData.method, segments (requestData.url.drop mount.length)⟩

/-! ### A handler behaviour to evaluate the routers on -/

/-- An `auth.required` that hands on no request at all, as for a visitor without a session;
every controller handler answers the request itself. -/
def rejectAll : Handler → Request → Bool :=
  fun _ _ => false

/-! ## The morgan token `request-body` (`server/worker.js`, lines 64-73) -/

/-- A property value of a parsed request body: the JSON scalars. -/
inductive JsonVal where
  | null
  | bool (b : Bool)
  | num (n : Int)
  | str (s : String)
deriving DecidableEq, Repr

/-- A plain object with scalar properties, in property order. -/
abbrev JsObject := List (String × JsonVal)

/-- The expression `key in obj`. -/
def hasProp (obj : JsObject) (key : String) : Bool :=
  obj.any (fun kv => decide (kv.1 = key))

/-- The assignment `obj[key] = v`: an existing property keeps its place, a new one goes last. -/
def setProp : JsObject → String → JsonVal → JsObject
  | [], key, v => [(key, v)]
  | kv :: rest, key, v => if kv.1 = key then (key, v) :: rest else kv :: setProp rest key v

/-- The call `Object.assign(target, source)`. -/
def objectAssign (target source : JsObject) : JsObject :=
  source.foldl (fun acc kv => setProp acc kv.1 kv.2) target

/-- A lower-case hexadecimal digit. -/
def hexDigit (n : Nat) : Char :=
  if n < 10 then Char.ofNat (48 + n) else Char.ofNat (87 + n)

/-- One character inside a JSON string, as `JSON.stringify` writes it: the quote (34) and the
backslash (92) get a backslash, control characters their short or `\u00xx` escape. -/
def escapeChar (c : Char) : List Char :=
  if c.toNat = 34 then [Char.ofNat 92, Char.ofNat 34]
  else if c.toNat = 92 then [Char.ofNat 92, Char.ofNat 92]
  else if c.toNat = 8 then [Char.ofNat 92, 'b']
  else if c.toNat = 12 then [Char.ofNat 92, 'f']
  else if c.toNat = 10 then [Char.ofNat 92, 'n']
  else if c.toNat = 13 then [Char.ofNat 92, 'r']
  else if c.toNat = 9 then [Char.ofNat 92, 't']
  else if c.toNat < 32 then
    [Char.ofNat 92, 'u', '0', '0', hexDigit (c.toNat / 16), hexDigit (c.toNat % 16)]
  else [c]

/-- The text `JSON.stringify` gives for a string. -/
def quoteJSON (s : String) : String :=
  String.mk ([Char.ofNat 34] ++ (s.data.map escapeChar).flatten ++ [Char.ofNat 34])

/-- The text `JSON.stringify` gives for a scalar. -/
def JsonVal.stringify : JsonVal → String
  | JsonVal.null => "null"
  | JsonVal.bool true => "true"
  | JsonVal.bool false => "false"
  | JsonVal.num n => toString n
  | JsonVal.str s => quoteJSON s

/-- The text `JSON.stringify(obj)` gives for a plain object with scalar properties. -/
def stringify (obj : JsObject) : String :=
  "\x7b" ++ ",".intercalate (obj.map (fun kv => quoteJSON kv.1 ++ ":" ++ kv.2.stringify))
    ++ "\x7d"

/-- The token function: the logged text, and `req.body` as the call leaves it. The copy `body`
is a new object, so the assignment to `body.password` does not reach `req.body`. -/
def requestBodyToken (reqBody : JsObject) : String × JsObject :=
  let body := objectAssign [] reqBody
  let body := if hasProp body "password" then setProp body "password" (JsonVal.str "***")
    else body
  (stringify body, reqBody)

/-- The documented body of `POST /users/auth` for a user logging in with `password`. -/
def loginBody (email password : String) : JsObject :=
  [("email", JsonVal.str email), ("password", JsonVal.str password)]

/-- The documented body of `POST /users`; a user registering with a password types it a second
time into `confirm`. -/
def registerBody (login email password confirm : String) : JsObject :=
  [("login", JsonVal.str login), ("email", JsonVal.str email),
   ("password", JsonVal.str password), ("confirm", JsonVal.str confirm)]

/-! ## The controller `getAll` (`src/controllers/posts.js`, lines 5-26) -/

/-- The values of `+req.query.limit` and `+req.query.offset`: an integer, or `none` for `NaN`
(a missing or non-numeric parameter). -/
structure PageQuery where
  limit : Option Int
  offset : Option Int
deriving DecidableEq, Repr

/-- The expression `n || d` on a number: `d` when `n` is `NaN` or 0. -/
def orDefault (n : Option Int) (d : Int) : Int :=
  match n with
  | some v => if v = 0 then d else v
  | none => d

/-- What the handler does to its surroundings, in order. -/
inductive Effect where
  | next (message : String)
  | find (limit skip : Int)
  | countDocuments
  | json (status : Nat) (pages : Int) (posts : List Post)
deriving DecidableEq, Repr

/-- The model `Post` as the handler uses it: what `Post.find({}).limit(l).skip(o)` and
`Post.countDocuments()` settle to (`Except.error` for a rejected promise). -/
structure Collection where
  find : Int → Int → Except String (List Post)
  countDocuments : Except String Int

/-- The response object: the error `res.status(200).json(...)` throws, if it throws. -/
structure Res where
  jsonThrows : Option String

/-- The expression `Math.ceil(a / b)` on integers, `b` not 0. -/
def ceilDiv (a b : Int) : Int :=
  -(Int.fdiv (-a) b)

/-- The `try` block of `getAll`, with `catch (e) { next(e) }`. -/
def getAllQuery (PostModel : Collection) (res : Res) (limit offset : Int) : List Effect :=
  match PostModel.find limit offset with
  | Except.error e => [Effect.find limit offset, Effect.next e]
  | Except.ok posts =>
    match PostModel.countDocuments with
    | Except.error e => [Effect.find limit offset, Effect.countDocuments, Effect.next e]
    | Except.ok n =>
      [Effect.find limit offset, Effect.countDocuments,
        Effect.json 200 (ceilDiv n limit) posts] ++
      (match res.jsonThrows with
        | some e => [Effect.next e]
        | none => [])

/-- The handler `getAll`: the `if` on the limit calls `next` and does not return, so the `try`
block follows in both cases. -/
def getAll (PostModel : Collection) (res : Res) (query : PageQuery) : List Effect :=
  let limit := orDefault query.limit 100
  let offset := orDefault query.offset 0
  (if limit > 100 then [Effect.next "Limit can't be more than 100"] else []) ++
    getAllQuery PostModel res limit offset

/-- A collection held in memory: `find` skips, then takes `limit` documents. -/
def collectionOf (posts : List Post) : Collection :=
  ⟨fun limit skip => Except.ok ((posts.drop skip.toNat).take limit.natAbs),
    Except.ok posts.length⟩

/-- The collection of 101 posts with ids 0 to 100. -/
def manyPosts : List Post :=
  (List.range 101).map (fun i => Post.create i "post" none none 0)

/-! ## The slug of `create` (`src/controllers/posts.js`, line 36) -/

/-- A value of `Math.random()`: the double `mantissa / 2 ^ exponent`. It is a double in [0, 1)
when the mantissa has at most 53 bits and is below `2 ^ exponent`. -/
structure RandomValue where
  mantissa : Nat
  exponent : Nat
deriving DecidableEq, Repr

/-- The value is a double in [0, 1). -/
def RandomValue.valid (r : RandomValue) : Prop :=
  r.mantissa < 2 ^ 53 ∧ r.mantissa < 2 ^ r.exponent

instance (r : RandomValue) : Decidable r.valid := by
  unfold RandomValue.valid
  exact inferInstance

/-- The number of binary digits of `n`, counted with `fuel` halvings. -/
def bitLengthAux : Nat → Nat → Nat
  | 0, _ => 0
  | fuel + 1, n => if n = 0 then 0 else 1 + bitLengthAux fuel (n / 2)

/-- The number of binary digits of `n`. -/
def bitLength (n : Nat) : Nat :=
  bitLengthAux n n

/-- A numerator rounded to the 53 significant bits of a double, ties to even; the power of two
it is divided by stays the same. -/
def roundToDouble (m : Nat) : Nat :=
  if bitLength m ≤ 53 then m
  else
    let shift := bitLength m - 53
    let q := m / 2 ^ shift
    let rest := m % 2 ^ shift
    let half := 2 ^ (shift - 1)
    (if half < rest ∨ (rest = half ∧ q % 2 = 1) then q + 1 else q) * 2 ^ shift

/-- The integer part of `Math.random() * Math.pow(36, 6)`: the double product is the exact
product rounded to a double, and the product is not negative. -/
def randomTimesPow (r : RandomValue) : Nat :=
  roundToDouble (r.mantissa * 36 ^ 6) / 2 ^ r.exponent

/-- The conversion ToInt32 that `x | 0` applies to the integer part of `x`: modulo 2^32, read
as a signed 32-bit integer. -/
def toInt32 (n : Int) : Int :=
  if 2 ^ 31 ≤ n % 2 ^ 32 then n % 2 ^ 32 - 2 ^ 32 else n % 2 ^ 32

/-- One digit of radix 36: `0`-`9`, then `a`-`z`. -/
def digit36 (d : Nat) : Char :=
  if d < 10 then Char.ofNat (48 + d) else Char.ofNat (87 + d)

/-- The radix-36 digits of `n` in front of `acc`, most significant first. -/
def digits36Aux : Nat → Nat → List Char → List Char
  | 0, _, acc => acc
  | fuel + 1, n, acc =>
    if n < 36 then digit36 n :: acc else digits36Aux fuel (n / 36) (digit36 (n % 36) :: acc)

/-- The radix-36 digits of `n`. -/
def digits36 (n : Nat) : List Char :=
  digits36Aux (n + 1) n []

/-- The character is one of `0`-`9`, `a`-`z`. -/
def isDigit36 (c : Char) : Bool :=
  (48 ≤ c.toNat && c.toNat ≤ 57) || (97 ≤ c.toNat && c.toNat ≤ 122)

/-- The method `toString(36)` on an integer-valued number: a minus sign for a negative number,
then the digits of its absolute value. -/
def toString36 (x : Int) : String :=
  if x < 0 then String.mk ('-' :: digits36 x.natAbs) else String.mk (digits36 x.natAbs)

/-- The suffix `(Math.random() * Math.pow(36, 6) | 0).toString(36)`. -/
def randomSuffix (r : RandomValue) : String :=
  toString36 (toInt32 (randomTimesPow r))

/-- The slug that `create` builds; `slugLib` is the function of the `slug` package. -/
def createSlug (slugLib : String → String) (title : String) (r : RandomValue) : String :=
  slugLib title ++ "-" ++ randomSuffix r

/-! # Theorems -/

/-! ## Lemmas on `findByIdAndUpdate` -/

theorem findByIdAndUpdate_found (store : Store) (postId : ObjectId) (u : Update)
    (opts : QueryOptions) (now : Nat) (doc : Post) (h : findById store postId = some doc) :
    (findByIdAndUpdate store postId u opts now).1
        = Except.ok (some (if opts.new then applyUpdate doc u now else doc)) ∧
      findById (findByIdAndUpdate store postId u opts now).2 postId
        = some (applyUpdate doc u now) := by
  induction store with
  | nil => simp [findById] at h
  | cons d rest ih =>
    by_cases hd : d._id = postId
    · have hdoc : d = doc := by simpa [findById, hd] using h
      subst hdoc
      simp [findByIdAndUpdate, findById, hd, applyUpdate]
    · have hrest : findById rest postId = some doc := by simpa [findById, hd] using h
      have := ih hrest
      simp [findByIdAndUpdate, findById, hd, this]

theorem findByIdAndUpdate_missing (store : Store) (postId : ObjectId) (u : Update)
    (opts : QueryOptions) (now : Nat) (h : findById store postId = none) :
    findByIdAndUpdate store postId u opts now = (Except.ok none, store) := by
  induction store with
  | nil => rfl
  | cons d rest ih =>
    by_cases hd : d._id = postId
    · simp [findById, hd] at h
    · have hrest : findById rest postId = none := by simpa [findById, hd] using h
      simp [findByIdAndUpdate, hd, ih hrest]

theorem findByIdAndUpdate_other (store : Store) (postId q : ObjectId) (u : Update)
    (opts : QueryOptions) (now : Nat) (hq : q ≠ postId) :
    findById (findByIdAndUpdate store postId u opts now).2 q = findById store q := by
  induction store with
  | nil => rfl
  | cons d rest ih =>
    by_cases hd : d._id = postId
    · have hdq : ¬ postId = q := fun h => hq h.symm
      simp [findByIdAndUpdate, findById, hd, applyUpdate, hdq]
    · by_cases hdq : d._id = q
      · simp only [findByIdAndUpdate, if_neg hd, findById, if_pos hdq]
      · simp only [findByIdAndUpdate, if_neg hd, findById, if_neg hdq, ih]

theorem findByIdAndUpdate_frame (store : Store) (postId : ObjectId) (u : Update)
    (opts : QueryOptions) (now : Nat) :
    List.Forall₂ (fun a b => sameOtherPaths a b ∧ (a._id ≠ postId → b = a)) store
      (findByIdAndUpdate store postId u opts now).2 := by
  have hrefl : ∀ l : Store,
      List.Forall₂ (fun a b => sameOtherPaths a b ∧ (a._id ≠ postId → b = a)) l l := by
    intro l
    induction l with
    | nil => exact List.Forall₂.nil
    | cons d rest ih =>
      exact List.Forall₂.cons ⟨⟨rfl, rfl, rfl, rfl, rfl, rfl, rfl, rfl⟩, fun _ => rfl⟩ ih
  induction store with
  | nil => exact List.Forall₂.nil
  | cons d rest ih =>
    by_cases hd : d._id = postId
    · simp only [findByIdAndUpdate, if_pos hd]
      exact List.Forall₂.cons
        ⟨⟨rfl, rfl, rfl, rfl, rfl, rfl, rfl, rfl⟩, fun hne => absurd hd hne⟩ (hrefl rest)
    · simp only [findByIdAndUpdate, if_neg hd]
      exact List.Forall₂.cons ⟨⟨rfl, rfl, rfl, rfl, rfl, rfl, rfl, rfl⟩, fun _ => rfl⟩ ih

/-- One call moves the counter of the post it names by its delta and no other counter. -/
theorem Call.run_commentCount (store : Store) (postId : ObjectId) (doc : Post) (c : Call)
    (h : findById store postId = some doc) :
    ∃ doc1, findById (Call.run store c) postId = some doc1 ∧
      doc1.commentCount + countDec postId [c] = doc.commentCount + countInc postId [c] := by
  cases c with
  | inc q now =>
    by_cases hq : q = postId
    · subst hq
      refine ⟨applyUpdate doc ⟨1⟩ now, ?_, ?_⟩
      · exact (findByIdAndUpdate_found store q ⟨1⟩ ⟨true⟩ now doc h).2
      · simp [applyUpdate, countInc, countDec]
    · refine ⟨doc, ?_, ?_⟩
      · show findById (findByIdAndUpdate store q ⟨1⟩ ⟨true⟩ now).2 postId = some doc
        rw [findByIdAndUpdate_other store q postId ⟨1⟩ ⟨true⟩ now (fun e => hq e.symm)]
        exact h
      · simp [countInc, countDec, hq]
  | dec q now =>
    by_cases hq : q = postId
    · subst hq
      refine ⟨applyUpdate doc ⟨-1⟩ now, ?_, ?_⟩
      · exact (findByIdAndUpdate_found store q ⟨-1⟩ ⟨true⟩ now doc h).2
      · simp [applyUpdate, countInc, countDec]
    · refine ⟨doc, ?_, ?_⟩
      · show findById (findByIdAndUpdate store q ⟨-1⟩ ⟨true⟩ now).2 postId = some doc
        rw [findByIdAndUpdate_other store q postId ⟨-1⟩ ⟨true⟩ now (fun e => hq e.symm)]
        exact h
      · simp [countInc, countDec, hq]

theorem countInc_cons (postId : ObjectId) (c : Call) (rest : List Call) :
    countInc postId (c :: rest) = countInc postId [c] + countInc postId rest := by
  cases c <;> simp [countInc]

theorem countDec_cons (postId : ObjectId) (c : Call) (rest : List Call) :
    countDec postId (c :: rest) = countDec postId [c] + countDec postId rest := by
  cases c <;> simp [countDec]

theorem countInc_map_inc (postId : ObjectId) (nows : List Nat) :
    countInc postId (nows.map (Call.inc postId)) = nows.length := by
  induction nows with
  | nil => rfl
  | cons n rest ih => simp only [List.map, countInc, ih, if_true, List.length]; omega

theorem countDec_map_inc (postId : ObjectId) (nows : List Nat) :
    countDec postId (nows.map (Call.inc postId)) = 0 := by
  induction nows with
  | nil => rfl
  | cons n rest ih => simpa only [List.map, countDec] using ih

/-- The counter after any sequence of calls: the start value, plus the increments that name
the post, minus the decrements that name it. -/
theorem runCalls_commentCount (calls : List Call) (store : Store) (postId : ObjectId)
    (doc : Post) (h : findById store postId = some doc) :
    ∃ doc1, findById (runCalls store calls) postId = some doc1 ∧
      doc1.commentCount = doc.commentCount + countInc postId calls - countDec postId calls := by
  induction calls generalizing store doc with
  | nil => exact ⟨doc, h, by simp [countInc, countDec]⟩
  | cons c rest ih =>
    obtain ⟨d1, hd1, hc1⟩ := Call.run_commentCount store postId doc c h
    obtain ⟨d2, hd2, hc2⟩ := ih (Call.run store c) d1 hd1
    refine ⟨d2, ?_, ?_⟩
    · simpa [runCalls] using hd2
    · rw [countInc_cons, countDec_cons, hc2]
      push_cast
      linarith

/-! ## The comment counter: claims C1-C5 -/

/-- C1: for every store, every existing post and every sequence of atomic `commentCountInc` and
`commentCountDec` calls (any interleaving, calls on other posts allowed in between), the post's
final `commentCount` is its initial value plus the number N of increments on it minus the
number M of decrements on it; a sequence of N increments alone ends at initial + N. -/
theorem commentCount_interleaving (store : Store) (postId : ObjectId) (doc : Post)
    (h : findById store postId = some doc) :
    (∀ (calls : List Call) (N M : Nat), countInc postId calls = N → countDec postId calls = M →
      ∃ doc1, findById (runCalls store calls) postId = some doc1 ∧
        doc1.commentCount = doc.commentCount + N - M) ∧
    (∀ nows : List Nat,
      ∃ doc1, findById (runCalls store (nows.map (Call.inc postId))) postId = some doc1 ∧
        doc1.commentCount = doc.commentCount + nows.length) := by
  refine ⟨?_, ?_⟩
  · intro calls N M hN hM
    subst hN hM
    exact runCalls_commentCount calls store postId doc h
  · intro nows
    obtain ⟨d1, hd1, hc1⟩ :=
      runCalls_commentCount (nows.map (Call.inc postId)) store postId doc h
    refine ⟨d1, hd1, ?_⟩
    have hi := countInc_map_inc postId nows
    have hdz := countDec_map_inc postId nows
    rw [hc1, hi, hdz]
    simp

/-- Witness of C1: two increments and a decrement on post 1, interleaved with an increment on
post 2, take its counter from 3 to 4. -/
theorem commentCount_interleaving_witness :
    findById sampleStore 1 = some
        { Post.create 1 "first" (some "first-a1") (some 7) 10 with commentCount := 3, rating := 2 } ∧
      ∃ doc1, findById (runCalls sampleStore
          [Call.inc 1 20, Call.inc 2 21, Call.dec 1 22, Call.inc 1 23]) 1 = some doc1 ∧
        doc1.commentCount = (3 : Int) + (2 : Nat) - (1 : Nat) :=
  ⟨rfl, (commentCount_interleaving sampleStore 1 _ rfl).1
    [Call.inc 1 20, Call.inc 2 21, Call.dec 1 22, Call.inc 1 23] 2 1 rfl rfl⟩

/-- C2: for every existing post, `commentCountInc` and `commentCountDec` are fulfilled with the
updated document: its `commentCount` is the stored one before the call plus the delta (+1 or
-1), and it is the document stored after the call. -/
theorem commentCount_returns_updated (store : Store) (postId : ObjectId) (now : Nat)
    (doc : Post) (h : findById store postId = some doc) :
    (∃ r, (commentCountInc store postId now).1 = Except.ok (some r) ∧
        r.commentCount = doc.commentCount + 1 ∧
        findById (commentCountInc store postId now).2 postId = some r) ∧
    (∃ r, (commentCountDec store postId now).1 = Except.ok (some r) ∧
        r.commentCount = doc.commentCount + -1 ∧
        findById (commentCountDec store postId now).2 postId = some r) := by
  have hi := findByIdAndUpdate_found store postId ⟨1⟩ ⟨true⟩ now doc h
  have hd := findByIdAndUpdate_found store postId ⟨-1⟩ ⟨true⟩ now doc h
  exact ⟨⟨applyUpdate doc ⟨1⟩ now, by simpa using hi.1, rfl, hi.2⟩,
    ⟨applyUpdate doc ⟨-1⟩ now, by simpa using hd.1, rfl, hd.2⟩⟩

/-- Witness of C2 on the sample store, post 1 (counter 3). -/
theorem commentCount_returns_updated_witness :
    findById sampleStore 1 = some
        { Post.create 1 "first" (some "first-a1") (some 7) 10 with commentCount := 3, rating := 2 } ∧
      (∃ r, (commentCountInc sampleStore 1 20).1 = Except.ok (some r) ∧
        r.commentCount = (3 : Int) + 1 ∧
        findById (commentCountInc sampleStore 1 20).2 1 = some r) :=
  ⟨rfl, (commentCount_returns_updated sampleStore 1 20 _ rfl).1⟩

/-- C3, as stated, fails: on the empty store `commentCountInc(7)` and `commentCountDec(7)` are
fulfilled with `null`; neither is rejected with an error. -/
theorem commentCount_missing_not_rejected :
    findById [] 7 = none ∧
      (commentCountInc [] 7 0).1 = Except.ok none ∧
      (commentCountDec [] 7 0).1 = Except.ok none ∧
      ¬ (∃ e, (commentCountInc [] 7 0).1 = Except.error e) ∧
      ¬ (∃ e, (commentCountDec [] 7 0).1 = Except.error e) := by
  refine ⟨rfl, rfl, rfl, ?_, ?_⟩ <;> rintro ⟨e, he⟩ <;> cases he

/-- C3, amended: for every store and every postId that names no existing post,
`commentCountInc` and `commentCountDec` complete successfully with `null` (no error reaches the
caller) and leave the store unchanged. -/
theorem commentCount_missing_post (store : Store) (postId : ObjectId) (now : Nat)
    (h : findById store postId = none) :
    commentCountInc store postId now = (Except.ok none, store) ∧
      commentCountDec store postId now = (Except.ok none, store) :=
  ⟨findByIdAndUpdate_missing store postId ⟨1⟩ ⟨true⟩ now h,
    findByIdAndUpdate_missing store postId ⟨-1⟩ ⟨true⟩ now h⟩

/-- Witness of the amended C3: post 9 is not in the sample store. -/
theorem commentCount_missing_post_witness :
    findById sampleStore 9 = none ∧
      commentCountInc sampleStore 9 20 = (Except.ok none, sampleStore) ∧
      commentCountDec sampleStore 9 20 = (Except.ok none, sampleStore) :=
  ⟨rfl, commentCount_missing_post sampleStore 9 20 rfl⟩

/-- C4, as stated, fails: one `commentCountDec` on a newly created post (counter 0) leaves
`commentCount` at -1. -/
theorem commentCount_negative_after_dec :
    (findById (runCalls [Post.create 1 "t" none none 0] [Call.dec 1 1]) 1).map
        (fun d => d.commentCount) = some (-1) ∧
      ¬ ((0 : Int) ≤ -1) := by
  refine ⟨rfl, by decide⟩

/-- C4, amended: starting from a newly created post (schema default `commentCount` = 0), after
every finite sequence of `commentCountInc` and `commentCountDec` calls the post's `commentCount`
is the integer (increments on it) - (decrements on it); it is >= 0 exactly when the sequence
holds no more decrements than increments on that post. -/
theorem commentCount_of_new_post (store : Store) (id : ObjectId) (title : String)
    (slug : Option String) (author : Option ObjectId) (t : Nat) (calls : List Call)
    (h : findById store id = some (Post.create id title slug author t)) :
    ∃ doc1, findById (runCalls store calls) id = some doc1 ∧
      doc1.commentCount = (countInc id calls : Int) - countDec id calls ∧
      (0 ≤ doc1.commentCount ↔ countDec id calls ≤ countInc id calls) := by
  obtain ⟨d1, hd1, hc1⟩ := runCalls_commentCount calls store id _ h
  have hc : d1.commentCount = (countInc id calls : Int) - countDec id calls := by
    rw [hc1]; simp [Post.create]
  refine ⟨d1, hd1, hc, ?_⟩
  rw [hc]
  omega

/-- Witness of the amended C4: an increment then a decrement on a new post. -/
theorem commentCount_of_new_post_witness :
    findById [Post.create 1 "t" none none 0] 1 = some (Post.create 1 "t" none none 0) ∧
      ∃ doc1, findById (runCalls [Post.create 1 "t" none none 0]
          [Call.inc 1 1, Call.dec 1 2]) 1 = some doc1 ∧
        doc1.commentCount = ((countInc 1 [Call.inc 1 1, Call.dec 1 2] : Nat) : Int)
          - countDec 1 [Call.inc 1 1, Call.dec 1 2] ∧
        (0 ≤ doc1.commentCount ↔
          countDec 1 [Call.inc 1 1, Call.dec 1 2] ≤ countInc 1 [Call.inc 1 1, Call.dec 1 2]) :=
  ⟨rfl, commentCount_of_new_post [Post.create 1 "t" none none 0] 1 "t" none none 0
    [Call.inc 1 1, Call.dec 1 2] rfl⟩

/-- C5: a comment-counter adjustment is scoped to one post. For every store and postId, after
`commentCountInc(postId)` and after `commentCountDec(postId)` the store holds the same documents
in the same places, each with its `_id`, title, slug, author, tags, sections, rating and
`createdAt` unchanged, and every document of another post unchanged in every field; looking up
any other post gives the same document as before. -/
theorem commentCount_frame (store : Store) (postId : ObjectId) (now : Nat) :
    List.Forall₂ (fun a b => sameOtherPaths a b ∧ (a._id ≠ postId → b = a)) store
        (commentCountInc store postId now).2 ∧
      List.Forall₂ (fun a b => sameOtherPaths a b ∧ (a._id ≠ postId → b = a)) store
        (commentCountDec store postId now).2 ∧
      (∀ q, q ≠ postId →
        findById (commentCountInc store postId now).2 q = findById store q ∧
        findById (commentCountDec store postId now).2 q = findById store q) :=
  ⟨findByIdAndUpdate_frame store postId ⟨1⟩ ⟨true⟩ now,
    findByIdAndUpdate_frame store postId ⟨-1⟩ ⟨true⟩ now,
    fun q hq => ⟨findByIdAndUpdate_other store postId q ⟨1⟩ ⟨true⟩ now hq,
      findByIdAndUpdate_other store postId q ⟨-1⟩ ⟨true⟩ now hq⟩⟩

/-- Witness of C5 on the sample store: adjusting post 1 leaves post 2 as it was. -/
theorem commentCount_frame_witness :
    (2 : ObjectId) ≠ 1 ∧
      findById (commentCountInc sampleStore 1 20).2 2 = findById sampleStore 2 ∧
      findById (commentCountDec sampleStore 1 20).2 2 = findById sampleStore 2 :=
  ⟨by decide, (commentCount_frame sampleStore 1 20).2.2 2 (by decide)⟩

/-! ## `toResponse`: claim C6 -/

/-- The value of `v || false` is a boolean exactly when `v` is a boolean or falsy. -/
theorem JsVal.or_false_isBool (v : JsVal) :
    (v.or (JsVal.bool false)).isBool = true ↔ (v.isBool = true ∨ v.truthy = false) := by
  cases v with
  | undefined => simp [JsVal.or, JsVal.truthy, JsVal.isBool]
  | null => simp [JsVal.or, JsVal.truthy, JsVal.isBool]
  | bool b => cases b <;> simp [JsVal.or, JsVal.truthy, JsVal.isBool]
  | num n =>
    by_cases hn : n = 0
    · subst hn
      simp [JsVal.or, JsVal.truthy, JsVal.isBool]
    · simp [JsVal.or, JsVal.truthy, JsVal.isBool, hn]
  | str s =>
    by_cases hs : s = ""
    · subst hs
      simp [JsVal.or, JsVal.truthy, JsVal.isBool]
    · simp [JsVal.or, JsVal.truthy, JsVal.isBool, hs]
  | object => simp [JsVal.or, JsVal.truthy, JsVal.isBool]

/-- The response when reading the viewer's rating does not throw. -/
theorem Post.toResponse_of_rated (post : Post) (user : Option User) (rated : RatedLookup)
    (h : ratedOf post._id user = Except.ok rated) :
    post.toResponse user = Except.ok
      { title := post.title
        sections := post.sections
        slug := post.slug
        author := post.author
        uploads := JsVal.undefined
        id := post._id
        commentCount := post.commentCount
        rating := post.rating
        createdAt := post.createdAt
        tags := post.tags
        rated := ⟨rated.result.or (JsVal.bool false), rated.negative.or (JsVal.bool false)⟩ } := by
  simp only [Post.toResponse, h]

/-- C6, as stated, fails: for a viewer whose `isRated` returns `{result: 1, negative: 'yes'}`,
`toResponse` reports `rated = {isRated: 1, negative: 'yes'}`, and neither field is a boolean. -/
theorem toResponse_rated_not_boolean :
    ∃ resp, (Post.create 1 "t" none none 0).toResponse (some truthyViewer) = Except.ok resp ∧
      resp.rated = ⟨JsVal.num 1, JsVal.str "yes"⟩ ∧
      resp.rated.isRated.isBool = false ∧ resp.rated.negative.isBool = false :=
  ⟨_, rfl, rfl, rfl, rfl⟩

/-- C6, amended: for every post and every viewer whose `isRated(post.id)` returns a value other
than `undefined` and `null`, `toResponse(user)` returns a response with
`rated = {isRated, negative}`, where `isRated` is the returned `result` and `negative` the
returned `negative`, each replaced by `false` when missing or falsy and reported as it is
otherwise; a field is a boolean exactly when the property it comes from is a boolean or falsy.
When no user is given, `rated` is exactly `{isRated: false, negative: false}`. In both cases
`commentCount` and `rating` are the stored counters. A viewer with no callable `isRated`, or
whose `isRated` returns `undefined` or `null`, makes `toResponse` throw a `TypeError`. -/
theorem toResponse_rated (post : Post) :
    (∀ (user : User) (isRated : ObjectId → Option RatedLookup) (rated : RatedLookup),
      user.isRated = some isRated → isRated post._id = some rated →
      ∃ resp, post.toResponse (some user) = Except.ok resp ∧
        resp.rated.isRated = (if rated.result.truthy then rated.result else JsVal.bool false) ∧
        resp.rated.negative =
          (if rated.negative.truthy then rated.negative else JsVal.bool false) ∧
        (resp.rated.isRated.isBool = true ↔
          (rated.result.isBool = true ∨ rated.result.truthy = false)) ∧
        (resp.rated.negative.isBool = true ↔
          (rated.negative.isBool = true ∨ rated.negative.truthy = false)) ∧
        resp.commentCount = post.commentCount ∧ resp.rating = post.rating) ∧
    (∃ resp, post.toResponse none = Except.ok resp ∧
        resp.rated = ⟨JsVal.bool false, JsVal.bool false⟩ ∧
        resp.commentCount = post.commentCount ∧ resp.rating = post.rating) ∧
    (∀ user : User, user.isRated = none →
      post.toResponse (some user) = Except.error JsError.typeError) ∧
    (∀ (user : User) (isRated : ObjectId → Option RatedLookup),
      user.isRated = some isRated → isRated post._id = none →
      post.toResponse (some user) = Except.error JsError.typeError) := by
  refine ⟨?_, ⟨_, rfl, rfl, rfl, rfl⟩, ?_, ?_⟩
  · intro user isRated rated h1 h2
    refine ⟨_, Post.toResponse_of_rated post (some user) rated
      (by simp only [ratedOf, h1, h2]), rfl, rfl, ?_, ?_, rfl, rfl⟩
    · exact JsVal.or_false_isBool rated.result
    · exact JsVal.or_false_isBool rated.negative
  · intro user h1
    simp only [Post.toResponse, ratedOf, h1]
  · intro user isRated h1 h2
    simp only [Post.toResponse, ratedOf, h1, h2]

/-- Witness of the amended C6: the sample viewer on post 2 (not rated, with `negative`
missing), where both fields come out as the boolean `false`. -/
theorem toResponse_rated_witness :
    ∃ resp, (Post.create 2 "t" none none 0).toResponse (some sampleViewer) = Except.ok resp ∧
      resp.rated.isRated =
        (if (JsVal.bool false).truthy then JsVal.bool false else JsVal.bool false) ∧
      resp.rated.negative =
        (if JsVal.undefined.truthy then JsVal.undefined else JsVal.bool false) ∧
      (resp.rated.isRated.isBool = true ↔
        ((JsVal.bool false).isBool = true ∨ (JsVal.bool false).truthy = false)) ∧
      (resp.rated.negative.isBool = true ↔
        (JsVal.undefined.isBool = true ∨ JsVal.undefined.truthy = false)) ∧
      resp.commentCount = (Post.create 2 "t" none none 0).commentCount ∧
      resp.rating = (Post.create 2 "t" none none 0).rating :=
  (toResponse_rated (Post.create 2 "t" none none 0)).1 sampleViewer _
    ⟨JsVal.bool false, JsVal.undefined⟩ rfl rfl

/-! ## The routers: claims C7, C8 -/

/-- A request whose method no route has runs no handler. -/
theorem dispatchFrom_no_method (decodable : String → Bool) (passes : Handler → Request → Bool)
    (routes : List Route) (req : Request) (h : ∀ r ∈ routes, r.method ≠ req.method)
    (pending : Bool) : dispatchFrom decodable passes pending routes req = [] := by
  induction routes generalizing pending with
  | nil => rfl
  | cons r rest ih =>
    have hr : r.method ≠ req.method := h r (List.mem_cons_self r rest)
    have hrest : ∀ r1 ∈ rest, r1.method ≠ req.method :=
      fun r1 h1 => h r1 (List.mem_cons_of_mem r h1)
    unfold dispatchFrom
    cases matchLayer decodable r.path req.path with
    | miss => exact ih hrest pending
    | decodeError => exact ih hrest true
    | hit =>
      cases pending with
      | true => simpa using ih hrest true
      | false => simpa [hr] using ih hrest false

/-- C7: in the comments router every mutating route requires authentication. For every request,
every behaviour of the handlers and of parameter decoding, the handlers the router runs are:
for `POST /`, `auth.required` and then, only if it handed the request on, `createComment`; for
`PUT /:id` and `DELETE /:id` with a decodable id, `auth.required` and then, only if it handed
the request on, `editComment`, `deleteComment`; for `GET /`, `getComment` alone, with no
authentication step; for anything else, none. So a request that `auth.required` does not hand
on (an unauthenticated one) never reaches `createComment`, `editComment` or `deleteComment`. -/
theorem commentsRouter_auth (decodable : String → Bool) (passes : Handler → Request → Bool)
    (req : Request) :
    (req.method = Method.GET →
      dispatch decodable passes commentsRouter req =
        (if req.path = [] then [Handler.getComment] else [])) ∧
    (req.method = Method.POST →
      dispatch decodable passes commentsRouter req =
        (if req.path = [] then
          (if passes Handler.authRequired req
            then [Handler.authRequired, Handler.createComment] else [Handler.authRequired])
        else [])) ∧
    (req.method = Method.PUT →
      dispatch decodable passes commentsRouter req =
        (match req.path with
          | [id] =>
            if id ≠ "" ∧ decodable id = true then
              (if passes Handler.authRequired req
                then [Handler.authRequired, Handler.editComment] else [Handler.authRequired])
            else []
          | _ => [])) ∧
    (req.method = Method.DELETE →
      dispatch decodable passes commentsRouter req =
        (match req.path with
          | [id] =>
            if id ≠ "" ∧ decodable id = true then
              (if passes Handler.authRequired req
                then [Handler.authRequired, Handler.deleteComment] else [Handler.authRequired])
            else []
          | _ => [])) ∧
    (passes Handler.authRequired req = false →
      Handler.createComment ∉ dispatch decodable passes commentsRouter req ∧
        Handler.editComment ∉ dispatch decodable passes commentsRouter req ∧
        Handler.deleteComment ∉ dispatch decodable passes commentsRouter req) := by
  obtain ⟨method, path⟩ := req
  refine ⟨?_, ?_, ?_, ?_, ?_⟩
  · rintro rfl
    rcases path with _ | ⟨seg, _ | ⟨seg2, rest⟩⟩
    · cases hg : passes Handler.getComment ⟨Method.GET, []⟩ <;>
        simp [dispatch, dispatchFrom, commentsRouter, matchLayer, fitsPath, matchPath, runStack,
          hg]
    · by_cases hid : seg = "" <;> cases hd : decodable seg <;>
        simp [dispatch, dispatchFrom, commentsRouter, matchLayer, fitsPath, matchPath, Seg.fits,
          Seg.accepts, hid, hd]
    · simp [dispatch, dispatchFrom, commentsRouter, matchLayer, fitsPath, matchPath]
  · rintro rfl
    rcases path with _ | ⟨seg, _ | ⟨seg2, rest⟩⟩
    · cases ha : passes Handler.authRequired ⟨Method.POST, []⟩ <;>
        cases hc : passes Handler.createComment ⟨Method.POST, []⟩ <;>
        simp [dispatch, dispatchFrom, commentsRouter, matchLayer, fitsPath, matchPath, runStack,
          ha, hc]
    · by_cases hid : seg = "" <;> cases hd : decodable seg <;>
        simp [dispatch, dispatchFrom, commentsRouter, matchLayer, fitsPath, matchPath, Seg.fits,
          Seg.accepts, hid, hd]
    · simp [dispatch, dispatchFrom, commentsRouter, matchLayer, fitsPath, matchPath]
  · rintro rfl
    rcases path with _ | ⟨seg, _ | ⟨seg2, rest⟩⟩
    · simp [dispatch, dispatchFrom, commentsRouter, matchLayer, fitsPath, matchPath]
    · by_cases hid : seg = "" <;> cases hd : decodable seg <;>
        cases ha : passes Handler.authRequired ⟨Method.PUT, [seg]⟩ <;>
        cases hc : passes Handler.editComment ⟨Method.PUT, [seg]⟩ <;>
        simp [dispatch, dispatchFrom, commentsRouter, matchLayer, fitsPath, matchPath, Seg.fits,
          Seg.accepts, runStack, hid, hd, ha, hc]
    · simp [dispatch, dispatchFrom, commentsRouter, matchLayer, fitsPath, matchPath]
  · rintro rfl
    rcases path with _ | ⟨seg, _ | ⟨seg2, rest⟩⟩
    · simp [dispatch, dispatchFrom, commentsRouter, matchLayer, fitsPath, matchPath]
    · by_cases hid : seg = "" <;> cases hd : decodable seg <;>
        cases ha : passes Handler.authRequired ⟨Method.DELETE, [seg]⟩ <;>
        cases hc : passes Handler.deleteComment ⟨Method.DELETE, [seg]⟩ <;>
        simp [dispatch, dispatchFrom, commentsRouter, matchLayer, fitsPath, matchPath, Seg.fits,
          Seg.accepts, runStack, hid, hd, ha, hc]
    · simp [dispatch, dispatchFrom, commentsRouter, matchLayer, fitsPath, matchPath]
  · intro ha
    rcases path with _ | ⟨seg, _ | ⟨seg2, rest⟩⟩
    · cases method <;>
        cases hg : passes Handler.getComment ⟨Method.GET, []⟩ <;>
        simp [dispatch, dispatchFrom, commentsRouter, matchLayer, fitsPath, matchPath, runStack,
          hg, ha]
    · cases method <;> by_cases hid : seg = "" <;> cases hd : decodable seg <;>
        simp [dispatch, dispatchFrom, commentsRouter, matchLayer, fitsPath, matchPath, Seg.fits,
          Seg.accepts, runStack, hid, hd, ha]
    · simp [dispatch, dispatchFrom, commentsRouter, matchLayer, fitsPath, matchPath]

/-- Witness of C7: with `auth.required` rejecting, `PUT /42` runs `auth.required` only and
`editComment` is not reached; `PUT /%zz`, whose parameter cannot be decoded, runs nothing. -/
theorem commentsRouter_auth_witness :
    dispatch decodeURIComponentOk rejectAll commentsRouter ⟨Method.PUT, ["42"]⟩
        = [Handler.authRequired] ∧
      (Handler.createComment ∉
          dispatch decodeURIComponentOk rejectAll commentsRouter ⟨Method.PUT, ["42"]⟩ ∧
        Handler.editComment ∉
          dispatch decodeURIComponentOk rejectAll commentsRouter ⟨Method.PUT, ["42"]⟩ ∧
        Handler.deleteComment ∉
          dispatch decodeURIComponentOk rejectAll commentsRouter ⟨Method.PUT, ["42"]⟩) ∧
      dispatch decodeURIComponentOk rejectAll commentsRouter ⟨Method.PUT, ["%zz"]⟩ = [] :=
  ⟨(commentsRouter_auth decodeURIComponentOk rejectAll ⟨Method.PUT, ["42"]⟩).2.2.1 rfl,
    (commentsRouter_auth decodeURIComponentOk rejectAll ⟨Method.PUT, ["42"]⟩).2.2.2.2 rfl,
    (commentsRouter_auth decodeURIComponentOk rejectAll ⟨Method.PUT, ["%zz"]⟩).2.2.1 rfl⟩

/-- C8, as stated, fails: the posts router registers no `PUT` and no `DELETE` route, and the
client's `PUT /posts/5f43a1/rate` and `DELETE /posts/5f43a1/rate` are matched by none of its
routes. -/
theorem postsRouter_rate_unmatched :
    (∀ r ∈ postsRouter, r.method ≠ Method.PUT ∧ r.method ≠ Method.DELETE) ∧
      matching decodeURIComponentOk postsRouter
        (routerRequest ("/api" ++ CONTROLLER_URL) (updateRateById "/api" "5f43a1" "")) = [] ∧
      matching decodeURIComponentOk postsRouter
        (routerRequest ("/api" ++ CONTROLLER_URL) (removeRateById "/api" "5f43a1")) = [] := by
  refine ⟨by decide, ?_, ?_⟩ <;>
    simp [matching, postsRouter, Route.matches, routerRequest, updateRateById, removeRateById,
      Query]

/-- C8, amended: the posts router registers exactly `GET /`, `GET /:slug` and `POST /`, the
last guarded by `auth.required`; it has no rating route, so for every `API_ROUTE`, post id and
payload the client's `PUT /posts/<id>/rate` (`updateRateById`) and `DELETE /posts/<id>/rate`
(`removeRateById`) are matched by no route of the posts router and no handler runs for them. -/
theorem postsRouter_routes (decodable : String → Bool) (passes : Handler → Request → Bool)
    (API_ROUTE id data : String) :
    postsRouter =
        [⟨Method.GET, [], [Handler.getAll]⟩,
         ⟨Method.GET, [Seg.param "slug"], [Handler.getBySlug]⟩,
         ⟨Method.POST, [], [Handler.authRequired, Handler.create]⟩] ∧
      matching decodable postsRouter
        (routerRequest (API_ROUTE ++ CONTROLLER_URL) (updateRateById API_ROUTE id data)) = [] ∧
      matching decodable postsRouter
        (routerRequest (API_ROUTE ++ CONTROLLER_URL) (removeRateById API_ROUTE id)) = [] ∧
      dispatch decodable passes postsRouter
        (routerRequest (API_ROUTE ++ CONTROLLER_URL) (updateRateById API_ROUTE id data)) = [] ∧
      dispatch decodable passes postsRouter
        (routerRequest (API_ROUTE ++ CONTROLLER_URL) (removeRateById API_ROUTE id)) = [] := by
  refine ⟨rfl, ?_, ?_, ?_, ?_⟩
  · simp [matching, postsRouter, Route.matches, routerRequest, updateRateById, Query]
  · simp [matching, postsRouter, Route.matches, routerRequest, removeRateById, Query]
  · exact dispatchFrom_no_method decodable passes postsRouter _
      (show ∀ r ∈ postsRouter, r.method ≠ Method.PUT by decide) false
  · exact dispatchFrom_no_method decodable passes postsRouter _
      (show ∀ r ∈ postsRouter, r.method ≠ Method.DELETE by decide) false

/-! ## The morgan token `request-body`: claim C9 -/

/-- For a login body the logged text is the same whatever the password, and `req.body` is left
as it was. -/
theorem requestBodyToken_login (email pw1 pw2 : String) :
    (requestBodyToken (loginBody email pw1)).1 = (requestBodyToken (loginBody email pw2)).1 ∧
      (requestBodyToken (loginBody email pw1)).2 = loginBody email pw1 := by
  refine ⟨?_, rfl⟩
  simp [requestBodyToken, loginBody, objectAssign, setProp, hasProp]

/-- For a registration body the `password` property is masked: with `confirm` held fixed, the
logged text is the same whatever the `password` property holds. -/
theorem requestBodyToken_register_password_property (login email confirm pw1 pw2 : String) :
    (requestBodyToken (registerBody login email pw1 confirm)).1 =
      (requestBodyToken (registerBody login email pw2 confirm)).1 := by
  simp [requestBodyToken, registerBody, objectAssign, setProp, hasProp]

/-- C9 on the code: two registrations that differ only in the user's password (typed into
`password` and `confirm`) are logged with different texts, each showing the password in clear
under `confirm`; only the `password` property is masked. Computing the token leaves `req.body`
as it was. -/
theorem requestBodyToken_register_leaks :
    (requestBodyToken (registerBody "bob" "bob@example.com" "hunter2!" "hunter2!")).1 =
        "\x7b\"login\":\"bob\",\"email\":\"bob@example.com\",\"password\":\"***\",\"confirm\":\"hunter2!\"\x7d" ∧
      (requestBodyToken (registerBody "bob" "bob@example.com" "s3cret??" "s3cret??")).1 =
        "\x7b\"login\":\"bob\",\"email\":\"bob@example.com\",\"password\":\"***\",\"confirm\":\"s3cret??\"\x7d" ∧
      (requestBodyToken (registerBody "bob" "bob@example.com" "hunter2!" "hunter2!")).1 ≠
        (requestBodyToken (registerBody "bob" "bob@example.com" "s3cret??" "s3cret??")).1 ∧
      (requestBodyToken (registerBody "bob" "bob@example.com" "hunter2!" "hunter2!")).2 =
        registerBody "bob" "bob@example.com" "hunter2!" "hunter2!" := by
  refine ⟨by decide, by decide, by decide, rfl⟩

/-! ## The controller `getAll`: claim C10 -/

/-- C10 on the code: for every request whose limit exceeds 100 the handler calls
`next(Error("Limit can't be more than 100"))` and then goes on: it issues
`Post.find({}).limit(limit).skip(offset)` with that limit and, when the queries succeed, calls
`res.status(200).json` with the page count and all the posts found. -/
theorem getAll_limit_not_enforced (PostModel : Collection) (res : Res) (query : PageQuery)
    (posts : List Post) (n : Int) (h : 100 < orDefault query.limit 100)
    (hfind : PostModel.find (orDefault query.limit 100) (orDefault query.offset 0) = Except.ok posts)
    (hcount : PostModel.countDocuments = Except.ok n) (hres : res.jsonThrows = none) :
    getAll PostModel res query =
      [Effect.next "Limit can't be more than 100",
       Effect.find (orDefault query.limit 100) (orDefault query.offset 0),
       Effect.countDocuments,
       Effect.json 200 (ceilDiv n (orDefault query.limit 100)) posts] := by
  simp [getAll, getAllQuery, h, hfind, hcount, hres]

/-- Witness: `GET /posts?limit=101` on a collection of 101 posts reports the error and also
queries with limit 101 and sends status 200 with all 101 posts on one page. -/
theorem getAll_limit_not_enforced_witness :
    100 < orDefault (some 101) 100 ∧
      manyPosts.length = 101 ∧
      getAll (collectionOf manyPosts) ⟨none⟩ ⟨some 101, none⟩ =
        [Effect.next "Limit can't be more than 100",
         Effect.find 101 0,
         Effect.countDocuments,
         Effect.json 200 1 manyPosts] :=
  ⟨by decide, rfl,
    getAll_limit_not_enforced (collectionOf manyPosts) ⟨none⟩ ⟨some 101, none⟩ manyPosts 101
      (by decide) rfl rfl rfl⟩

/-! ## The slug of `create`: claim C11 -/

theorem bitLengthAux_zero (fuel : Nat) : bitLengthAux fuel 0 = 0 := by
  cases fuel <;> simp [bitLengthAux]

/-- With enough fuel the count is the position of the leading binary digit. -/
theorem bitLengthAux_bounds (fuel n : Nat) (h : n ≤ fuel) :
    n < 2 ^ bitLengthAux fuel n ∧ (n ≠ 0 → 2 ^ (bitLengthAux fuel n - 1) ≤ n) := by
  induction fuel generalizing n with
  | zero =>
    have hn : n = 0 := by omega
    subst hn
    simp [bitLengthAux]
  | succ fuel ih =>
    by_cases hn : n = 0
    · subst hn
      simp [bitLengthAux]
    · have hhalf : n / 2 ≤ fuel := by omega
      obtain ⟨hlt, hge⟩ := ih (n / 2) hhalf
      simp only [bitLengthAux, if_neg hn]
      refine ⟨?_, fun _ => ?_⟩
      · have h2 : 2 ^ (1 + bitLengthAux fuel (n / 2)) = 2 * 2 ^ bitLengthAux fuel (n / 2) := by
          rw [Nat.add_comm, pow_succ, Nat.mul_comm]
        rw [h2]
        omega
      · have h1 : 1 + bitLengthAux fuel (n / 2) - 1 = bitLengthAux fuel (n / 2) := by omega
        rw [h1]
        by_cases hz : n / 2 = 0
        · rw [hz, bitLengthAux_zero]
          simp
          omega
        · have hb : bitLengthAux fuel (n / 2) ≠ 0 := by
            intro hb0
            rw [hb0] at hlt
            simp at hlt
            exact hz hlt
          have hpow : 2 ^ bitLengthAux fuel (n / 2)
              = 2 * 2 ^ (bitLengthAux fuel (n / 2) - 1) := by
            have hs : bitLengthAux fuel (n / 2) = (bitLengthAux fuel (n / 2) - 1) + 1 := by
              omega
            rw [hs, pow_succ, Nat.mul_comm]
            simp
          have := hge hz
          rw [hpow]
          omega

theorem bitLength_bounds (n : Nat) :
    n < 2 ^ bitLength n ∧ (n ≠ 0 → 2 ^ (bitLength n - 1) ≤ n) :=
  bitLengthAux_bounds n n (Nat.le_refl n)

/-- The rounded product of a double in [0, 1) and `36 ^ 6` stays below `36 ^ 6`: rounding to 53
bits never reaches `36 ^ 6` itself. -/
theorem roundToDouble_lt (k e : Nat) (hk : k < 2 ^ 53) (hke : k < 2 ^ e) :
    roundToDouble (k * 36 ^ 6) < 36 ^ 6 * 2 ^ e := by
  have hP : (36 : Nat) ^ 6 = 2176782336 := by norm_num
  rw [hP]
  have hmM : k * 2176782336 + 2176782336 ≤ 2176782336 * 2 ^ e := by
    have h1 : k + 1 ≤ 2 ^ e := hke
    have h2 := Nat.mul_le_mul_left 2176782336 h1
    omega
  have hm85 : k * 2176782336 < 2 ^ 85 := by
    have h53 : (2 : Nat) ^ 53 = 9007199254740992 := by norm_num
    have h85 : (2 : Nat) ^ 85 = 38685626227668133590597632 := by norm_num
    rw [h53] at hk
    rw [h85]
    omega
  unfold roundToDouble
  by_cases hb : bitLength (k * 2176782336) ≤ 53
  · simp only [if_pos hb]
    omega
  · simp only [if_neg hb]
    obtain ⟨_, hge⟩ := bitLength_bounds (k * 2176782336)
    generalize hm : k * 2176782336 = m at *
    generalize hbl : bitLength m = bl at *
    have hm0 : m ≠ 0 := by
      intro h0
      subst h0
      have : bitLength 0 = 0 := by decide
      omega
    have hge1 := hge hm0
    have hbl85 : bl - 1 < 85 := by
      by_contra hcon
      have := Nat.pow_le_pow_right (by norm_num : 0 < 2) (Nat.le_of_not_lt hcon)
      omega
    have hse : bl - 53 + 20 < e := by
      by_contra hcon
      have h1 : 32 + e ≤ bl - 1 := by omega
      have h2 := Nat.pow_le_pow_right (by norm_num : 0 < 2) h1
      have h3 : (2 : Nat) ^ (32 + e) = 4294967296 * 2 ^ e := by
        rw [pow_add]
        norm_num
      have h4 : 0 < 2 ^ e := Nat.pow_pos (by norm_num)
      omega
    have hsplit : (2 : Nat) ^ e = 2 ^ (bl - 53) * 2 ^ (e - (bl - 53)) := by
      rw [← pow_add]
      congr 1
      omega
    have hdouble : (2 : Nat) ^ (bl - 53) = 2 * 2 ^ (bl - 53 - 1) := by
      have hs : bl - 53 = (bl - 53 - 1) + 1 := by omega
      rw [hs, pow_succ, Nat.mul_comm]
      simp
    have hhalf : (2 : Nat) ^ (bl - 53 - 1) ≤ 2 ^ 31 :=
      Nat.pow_le_pow_right (by norm_num) (by omega)
    have h31 : (2 : Nat) ^ 31 = 2147483648 := by norm_num
    rw [h31] at hhalf
    have hdm := Nat.div_add_mod m (2 ^ (bl - 53))
    rw [hsplit] at hmM ⊢
    generalize (2 : Nat) ^ (e - (bl - 53)) = c at *
    generalize hq : m / 2 ^ (bl - 53) = q at *
    generalize hr : m % 2 ^ (bl - 53) = rest at *
    generalize (2 : Nat) ^ (bl - 53 - 1) = a at *
    generalize hT : (2 : Nat) ^ (bl - 53) = t at *
    have hassoc : 2176782336 * (t * c) = t * (2176782336 * c) := by ring
    rw [hassoc] at hmM ⊢
    generalize 2176782336 * c = Q at *
    split
    · rename_i hc
      have ha : a ≤ rest := by
        rcases hc with h | ⟨h, _⟩ <;> omega
      by_contra hcon
      have hle : t * Q ≤ (q + 1) * t := Nat.le_of_not_lt hcon
      have hexp : (q + 1) * t = t * q + t := by ring
      omega
    · have hcomm : q * t = t * q := Nat.mul_comm q t
      omega

/-- The integer part of `Math.random() * Math.pow(36, 6)` is below `36 ^ 6`. -/
theorem randomTimesPow_lt (r : RandomValue) (h : r.valid) : randomTimesPow r < 36 ^ 6 := by
  unfold randomTimesPow
  rw [Nat.div_lt_iff_lt_mul (Nat.pow_pos (by norm_num))]
  exact roundToDouble_lt r.mantissa r.exponent h.1 h.2

theorem digit36_isDigit36 : ∀ d, d < 36 → isDigit36 (digit36 d) = true := by
  decide

/-- With enough fuel the digits of a number below `36 ^ k` are between 1 and `k` characters in
front of `acc`, each one of `0`-`9`, `a`-`z`. -/
theorem digits36Aux_spec (fuel n k : Nat) (acc : List Char) (hf : n < fuel)
    (hk : n < 36 ^ k) (hk1 : 1 ≤ k) :
    acc.length + 1 ≤ (digits36Aux fuel n acc).length ∧
      (digits36Aux fuel n acc).length ≤ acc.length + k ∧
      (∀ c ∈ digits36Aux fuel n acc, c ∈ acc ∨ isDigit36 c = true) := by
  induction fuel generalizing n k acc with
  | zero => omega
  | succ fuel ih =>
    by_cases hn : n < 36
    · simp only [digits36Aux, if_pos hn, List.length_cons, List.mem_cons]
      refine ⟨by omega, by omega, ?_⟩
      rintro c (hc | hc)
      · exact Or.inr (hc ▸ digit36_isDigit36 n hn)
      · exact Or.inl hc
    · simp only [digits36Aux, if_neg hn]
      have hk2 : 2 ≤ k := by
        by_contra hcon
        have hk' : k = 1 := by omega
        subst hk'
        simp at hk
        omega
      have hpow : 36 ^ k = 36 * 36 ^ (k - 1) := by
        have hs : k = (k - 1) + 1 := by omega
        rw [hs, pow_succ, Nat.mul_comm]
        simp
      have hdiv : n / 36 < 36 ^ (k - 1) := by
        apply Nat.div_lt_of_lt_mul
        rw [← hpow]
        exact hk
      obtain ⟨h1, h2, h3⟩ :=
        ih (n / 36) (k - 1) (digit36 (n % 36) :: acc) (by omega) hdiv (by omega)
      simp only [List.length_cons] at h1 h2
      refine ⟨by omega, by omega, ?_⟩
      intro c hc
      rcases h3 c hc with h | h
      · rcases List.mem_cons.1 h with h | h
        · exact Or.inr (h ▸ digit36_isDigit36 (n % 36) (Nat.mod_lt n (by norm_num)))
        · exact Or.inl h
      · exact Or.inr h

/-- Below 2^31 the conversion `| 0` keeps the integer. -/
theorem toInt32_small (n : Nat) (h : n < 2 ^ 31) : toInt32 n = n := by
  unfold toInt32
  norm_num at h ⊢
  omega

/-- From 2^31 up to 2^32 the conversion `| 0` wraps to the negative number `n - 2^32`. -/
theorem toInt32_wraps (n : Nat) (h1 : 2 ^ 31 ≤ n) (h2 : n < 2 ^ 32) :
    toInt32 n = (n : Int) - 2 ^ 32 ∧ toInt32 n < 0 := by
  unfold toInt32
  norm_num at h1 h2 ⊢
  omega

/-- The suffix for every value of `Math.random()` in [0, 1): when the integer part `n` of the
product is below 2^31 it is the radix-36 rendering of `n`, 1 to 6 characters of `0`-`9`,
`a`-`z`; when `n` is 2^31 or more it is a minus sign followed by the digits of `2^32 - n`. -/
theorem randomSuffix_cases (r : RandomValue) (h : r.valid) :
    randomTimesPow r < 36 ^ 6 ∧
      (randomTimesPow r < 2 ^ 31 →
        randomSuffix r = String.mk (digits36 (randomTimesPow r)) ∧
          1 ≤ (digits36 (randomTimesPow r)).length ∧
          (digits36 (randomTimesPow r)).length ≤ 6 ∧
          ∀ c ∈ digits36 (randomTimesPow r), isDigit36 c = true) ∧
      (2 ^ 31 ≤ randomTimesPow r →
        randomSuffix r = String.mk ('-' :: digits36 (2 ^ 32 - randomTimesPow r))) := by
  have hlt := randomTimesPow_lt r h
  refine ⟨hlt, ?_, ?_⟩
  · intro hsmall
    obtain ⟨h1, h2, h3⟩ :=
      digits36Aux_spec (randomTimesPow r + 1) (randomTimesPow r) 6 [] (by omega) hlt (by omega)
    refine ⟨?_, by simpa [digits36] using h1, by simpa [digits36] using h2, ?_⟩
    · unfold randomSuffix toString36
      rw [toInt32_small _ hsmall]
      simp
    · intro c hc
      rcases h3 c hc with hmem | hd
      · simp at hmem
      · exact hd
  · intro hbig
    have h32 : randomTimesPow r < 2 ^ 32 := by
      norm_num at hlt ⊢
      omega
    obtain ⟨hw, hneg⟩ := toInt32_wraps _ hbig h32
    unfold randomSuffix toString36
    rw [if_pos hneg, hw]
    have habs : ((randomTimesPow r : Int) - 2 ^ 32).natAbs = 2 ^ 32 - randomTimesPow r := by
      norm_num at hbig h32 ⊢
      omega
    rw [habs]

/-- C11 on the code: for `Math.random()` = 4095/4096, a double in [0, 1), the product with
`36 ^ 6` is 2176250895, which is below `36 ^ 6` but not below 2^31; `| 0` wraps it to
-2118716401 and the suffix is `-z1fg1d`: seven characters, the first a minus sign, so the slug
of the title `hello` is `hello--z1fg1d`. -/
theorem randomSuffix_negative :
    (⟨4095, 12⟩ : RandomValue).valid ∧
      randomTimesPow ⟨4095, 12⟩ = 2176250895 ∧
      randomTimesPow ⟨4095, 12⟩ < 36 ^ 6 ∧
      toInt32 (randomTimesPow ⟨4095, 12⟩) = -2118716401 ∧
      randomSuffix ⟨4095, 12⟩ = "-z1fg1d" ∧
      createSlug (fun title => title) "hello" ⟨4095, 12⟩ = "hello--z1fg1d" := by
  refine ⟨by decide, by decide, by decide, by decide, by decide, by decide⟩

end ExpressBlog
